import Mathlib

/-!
# Verification of `fabric-chaincode-wasm` (`internal/wasm_guest.go`)

Shallow embedding of the Wasm guest bridge from `internal/wasm_guest.go`:

* `WasmGuest` holds a waPC module, a waPC instance pool, an engine and a context.
* `NewWasmGuest` reads the bytecode file, compiles it to a module, and builds a
  `wapc.Pool` of 10 instances (the capacity `10` is a literal in the source).
* `InvokeWasmOperation` acquires an instance from the pool with a 10 ms timeout,
  invokes the guest operation, and in a `defer` block returns the instance to the
  pool, assigning `wg.wapcPool.Return(wapcInstance)` to the *named* error return
  value `err`.
* `Close` closes the pool first, then the module.

The waPC library (`wapc.Pool`, `wapc.Module`, instances) is an external
dependency whose code is not part of this repository.  The embedding therefore
comes in two layers:

* an *environment* layer (`WapcEnv`), in which the outcomes of the three
  external calls (`Pool.Get`, `Instance.Invoke`, `Pool.Return`) are oracle
  parameters, and `InvokeWasmOperation` is a faithful translation of the Go
  function body (control flow, `defer` semantics, named return values);
* a *pool* layer, in which the pool's behaviour is modelled from the spec
  (sections 4.2 and 7), for the claims that are about pool semantics
  (timeout, closed pool, instance exclusivity).

Bytes are modelled as `List Nat`; opaque handles (engine, context, compiled
module body) carry no data relevant to the claims and are elided.
-/

/-- Binary payloads and results (`[]byte` in Go). -/
abbrev Bytes := List Nat

/-- The failures that can surface through the bridge.  The spec's taxonomy
(section 7): timeout on acquisition, closed pool, guest-execution failure,
return-to-pool failure, file-read failure, compilation failure, pool-build
failure. -/
inductive WapcError
  | timeout
  | poolClosed
  | guestError (msg : String)
  | returnError (msg : String)
  | readError (msg : String)
  | loadError (msg : String)
  | poolInitError (msg : String)
  deriving Repr, DecidableEq

/-- Observable actions performed by the bridge, recorded as a trace so that
"exactly once", "never", and ordering properties can be stated. -/
inductive HostEvent
  | acquireAttempt (timeoutMillis : Nat)
  | gotInstance (i : Nat)
  | invokedGuest (i : Nat) (operation : String)
  | returnedInstance (i : Nat)
  | closedPool
  | closedModule
  deriving Repr, DecidableEq

/-- The acquisition timeout passed to `wg.wapcPool.Get` in the source:
`10 * time.Millisecond` (`wasm_guest.go` line 77). -/
def acquireTimeoutMillis : Nat := 10

/-- Outcomes of the external waPC calls made by `InvokeWasmOperation`, supplied
as an oracle environment: the result of `wg.wapcPool.Get`, of
`wapcInstance.Invoke`, and of `wg.wapcPool.Return` (`none` = `nil` error). -/
structure WapcEnv where
  getResult : Except WapcError Nat
  invokeResult : Nat → String → Bytes → Except WapcError Bytes
  returnResult : Nat → Option WapcError

/-- `InvokeWasmOperation` (`wasm_guest.go` lines 75-101), environment layer.

Faithful to the Go body with its named return values `(result []byte, err
error)`:
* `wapcInstance, err := wg.wapcPool.Get(10 * time.Millisecond)`; on error the
  function returns `nil, err` before the `defer` is registered;
* otherwise a `defer` block is registered that runs on every exit path and
  executes `err = wg.wapcPool.Return(wapcInstance)` — an assignment to the
  *named return value* `err`, unconditionally overwriting whatever `err` the
  body's `return` statement set (a `nil` result of `Return` erases a guest
  error; a non-`nil` result replaces it);
* the body runs `result, err = wapcInstance.Invoke(ctx, operation, payload)`
  and returns `nil, err` on error, `result, nil` on success.

The returned value is `((result, err), trace)`. -/
def InvokeWasmOperation (env : WapcEnv) (operation : String) (payload : Bytes) :
    (Option Bytes × Option WapcError) × List HostEvent :=
  match env.getResult with
  | .error e => ((none, some e), [.acquireAttempt acquireTimeoutMillis])
  | .ok wapcInstance =>
    -- body of the function after the defer is registered
    let bodyReturn : Option Bytes × Option WapcError :=
      match env.invokeResult wapcInstance operation payload with
      | .error e => (none, some e)
      | .ok r => (some r, none)
    -- deferred block: err = wg.wapcPool.Return(wapcInstance)
    let deferredErr := env.returnResult wapcInstance
    ((bodyReturn.1, deferredErr),
      [.acquireAttempt acquireTimeoutMillis, .gotInstance wapcInstance,
       .invokedGuest wapcInstance operation, .returnedInstance wapcInstance])

/-- Modelled from the spec: the state of the waPC instance pool.  The
`wapc.Pool` implementation is an external library, not part of this repository;
section 4.2 specifies it as a fixed-capacity collection with an available set,
a checked-out set, and a closed flag.  Instances are identified by `Nat`;
`held` records `(instance, caller)` for each checked-out instance. -/
structure PoolState where
  available : List Nat
  held : List (Nat × Nat)
  closed : Bool
  deriving Repr, DecidableEq

/-- Number of live instances: available plus checked out. -/
def PoolState.capacity (ps : PoolState) : Nat :=
  ps.available.length + ps.held.length

/-- Modelled from the spec: `new(module, capacity)` eagerly instantiates
`capacity` instances (section 4.2); the fresh pool has them all available. -/
def poolNew (capacity : Nat) : PoolState :=
  ⟨List.range capacity, [], false⟩

/-- Modelled from the spec: `acquire(timeout) -> Instance | TimeoutError`
(section 4.2).  After close, acquisition fails immediately with `ClosedError`;
with no instance available it fails with the distinguishable timeout error;
otherwise an available instance moves to the checked-out set of `caller`. -/
def poolGet (ps : PoolState) (caller : Nat) : Except WapcError (Nat × PoolState) :=
  if ps.closed then .error .poolClosed
  else
    match ps.available with
    | [] => .error .timeout
    | i :: rest => .ok (i, ⟨rest, (i, caller) :: ps.held, ps.closed⟩)

/-- Modelled from the spec: `release(instance)` (section 4.2).  Returning a
checked-out instance re-pools it (or tears it down if the pool is closed);
returning an instance that is not checked out is a reported error and leaves
the pool unchanged. -/
def poolReturn (ps : PoolState) (i : Nat) : Option WapcError × PoolState :=
  if i ∈ ps.held.map Prod.fst then
    if ps.closed then (none, ⟨ps.available, ps.held.eraseP (fun p => i == p.1), true⟩)
    else (none, ⟨ps.available ++ [i], ps.held.eraseP (fun p => i == p.1), false⟩)
  else
    (some (.returnError "instance not checked out"), ps)

/-- Modelled from the spec: `close()` on the pool (section 4.2): available
instances are torn down immediately, checked-out ones as they are released;
afterwards acquisition fails with `ClosedError`. -/
def poolClose (ps : PoolState) : PoolState :=
  ⟨[], ps.held, true⟩

/-- The `WasmGuest` struct (`wasm_guest.go` lines 29-34): pool plus module.
The engine handle and context are opaque and carry no claim-relevant data;
the module is represented only by whether it has been closed. -/
structure WasmGuestSt where
  pool : PoolState
  moduleClosed : Bool
  deriving Repr, DecidableEq

/-- Resources allocated on the engine side during construction. -/
inductive Resource
  | module
  | pool
  deriving Repr, DecidableEq

/-- Outcomes of the external calls made by `NewWasmGuest`: the result of
`ioutil.ReadFile`, of `engine.New` (compilation), and whether `wapc.NewPool`
succeeds. -/
structure BuildEnv where
  readResult : Except WapcError Bytes
  compileResult : Bytes → Except WapcError Unit
  poolInitOk : Bool

/-- `NewWasmGuest` (`wasm_guest.go` lines 41-72).

* `ioutil.ReadFile(wasmFile)`: on error, `return nil, err` (nothing allocated);
* `engine.New(...)`: on error, `return nil, err` (no module allocated);
* on success the compiled module is allocated and stored in `wg.wapcModule`;
* `wapc.NewPool(context.Background(), module, 10)` — the capacity is the
  literal `10` (line 63); on error, `return nil, err` with **no** `Close` of
  the already-compiled module, which therefore stays allocated;
* on success the guest holds the pool of 10 instances and the open module.

The second component lists the engine-side resources still allocated when the
function returns. -/
def NewWasmGuest (env : BuildEnv) : Except WapcError WasmGuestSt × List Resource :=
  match env.readResult with
  | .error e => (.error e, [])
  | .ok wasmBytes =>
    match env.compileResult wasmBytes with
    | .error e => (.error e, [])
    | .ok _ =>
      -- wg.wapcModule = &module : the module is now allocated
      if env.poolInitOk then
        (.ok ⟨poolNew 10, false⟩, [.module, .pool])
      else
        -- pool, err := wapc.NewPool(...) failed: return nil, err
        -- (the module is not closed on this path)
        (.error (.poolInitError "pool"), [.module])

/-- Modelled from the spec: `construct(bytecodeBytes, hostCallback,
poolCapacity)` as written in section 4.1, which takes a pool-capacity
parameter and "builds an Instance Pool of `poolCapacity` instances".  Stated
only for refinement comparison with `NewWasmGuest`, which has no such
parameter. -/
def NewWasmGuestSpec (env : BuildEnv) (poolCapacity : Nat) :
    Except WapcError WasmGuestSt × List Resource :=
  match env.readResult with
  | .error e => (.error e, [])
  | .ok wasmBytes =>
    match env.compileResult wasmBytes with
    | .error e => (.error e, [])
    | .ok _ =>
      if env.poolInitOk then
        (.ok ⟨poolNew poolCapacity, false⟩, [.module, .pool])
      else
        (.error (.poolInitError "pool"), [.module])

/-- `InvokeWasmOperation`, pool layer: the same function body as
`InvokeWasmOperation` but with the external pool calls interpreted by the
spec-modelled pool (`poolGet`, `poolReturn`) threaded through explicitly, and
the guest behaviour supplied as a function.  Returns the `(result, err)` pair,
the pool state after the call, and the event trace. -/
def InvokeWasmOperationPooled (guest : Nat → String → Bytes → Except WapcError Bytes)
    (ps : PoolState) (caller : Nat) (operation : String) (payload : Bytes) :
    (Option Bytes × Option WapcError) × PoolState × List HostEvent :=
  match poolGet ps caller with
  | .error e => ((none, some e), ps, [.acquireAttempt acquireTimeoutMillis])
  | .ok (wapcInstance, ps1) =>
    let bodyReturn : Option Bytes × Option WapcError :=
      match guest wapcInstance operation payload with
      | .error e => (none, some e)
      | .ok r => (some r, none)
    -- deferred block: err = wg.wapcPool.Return(wapcInstance)
    let ret := poolReturn ps1 wapcInstance
    ((bodyReturn.1, ret.1), ret.2,
      [.acquireAttempt acquireTimeoutMillis, .gotInstance wapcInstance,
       .invokedGuest wapcInstance operation, .returnedInstance wapcInstance])

/-- `Close` (`wasm_guest.go` lines 104-111): closes the waPC pool, then closes
the waPC module, in that order; the trace records the two teardown steps in
program order. -/
def WasmGuestSt.close (wg : WasmGuestSt) : WasmGuestSt × List HostEvent :=
  -- wg.wapcPool.Close(context.Background())
  let pool := poolClose wg.pool
  -- g := *wg.wapcModule; g.Close(wg.context)
  (⟨pool, true⟩, [.closedPool, .closedModule])

/-! ## The pool as a state machine

To reason about arbitrary interleavings of concurrent invocations, the pool is
viewed as a transition system: each step is one atomic pool operation (an
acquisition by some caller, a return of some instance, or a close).  A
concurrent execution of `InvokeWasmOperation` calls corresponds to some
interleaving of such steps, so an invariant of all reachable states covers
every concurrent schedule. -/

/-- One atomic pool transition: a successful acquisition by `caller`, a return
of instance `i` (successful or rejected), or a close. -/
inductive PoolStep : PoolState → PoolState → Prop
  | get (caller i : Nat) (ps ps' : PoolState) :
      poolGet ps caller = .ok (i, ps') → PoolStep ps ps'
  | ret (i : Nat) (e : Option WapcError) (ps ps' : PoolState) :
      poolReturn ps i = (e, ps') → PoolStep ps ps'
  | close (ps : PoolState) : PoolStep ps (poolClose ps)

/-- Pool states reachable from a freshly built pool of capacity `c`. -/
def PoolReachable (c : Nat) (ps : PoolState) : Prop :=
  Relation.ReflTransGen PoolStep (poolNew c) ps

/-- The pool's bookkeeping invariant: no instance is listed twice across the
available set and the checked-out set (it is "available in the pool" or
"checked out to exactly one caller" — never both, never twice). -/
def PoolInv (ps : PoolState) : Prop :=
  (ps.available ++ ps.held.map Prod.fst).Nodup

theorem poolInv_new (c : Nat) : PoolInv (poolNew c) := by
  simp [PoolInv, poolNew, List.nodup_range]

theorem map_fst_eraseP_eq (i : Nat) (l : List (Nat × Nat)) :
    (l.eraseP (fun p => i == p.1)).map Prod.fst = (l.map Prod.fst).erase i := by
  rw [List.erase_eq_eraseP, List.eraseP_map]
  rfl

theorem poolInv_step {ps ps' : PoolState} (h : PoolStep ps ps') (hinv : PoolInv ps) :
    PoolInv ps' := by
  cases h with
  | get caller i ps ps' hg =>
    unfold poolGet at hg
    by_cases hc : ps.closed
    · simp [hc] at hg
    · simp [hc] at hg
      cases hav : ps.available with
      | nil => rw [hav] at hg; simp at hg
      | cons j rest =>
        rw [hav] at hg
        simp only [Except.ok.injEq, Prod.mk.injEq] at hg
        obtain ⟨rfl, rfl⟩ := hg
        have hinv' : (j :: (rest ++ ps.held.map Prod.fst)).Nodup := by
          have := hinv
          unfold PoolInv at this
          rw [hav] at this
          simpa using this
        exact List.perm_middle.symm.nodup hinv'
  | ret i e ps ps' hr =>
    unfold poolReturn at hr
    split_ifs at hr with hmem hc
    · rw [Prod.mk.injEq] at hr
      obtain ⟨-, rfl⟩ := hr
      unfold PoolInv
      simp only [map_fst_eraseP_eq]
      exact (((ps.held.map Prod.fst).erase_sublist i).append_left ps.available).nodup hinv
    · rw [Prod.mk.injEq] at hr
      obtain ⟨-, rfl⟩ := hr
      unfold PoolInv
      simp only [map_fst_eraseP_eq]
      have hperm : List.Perm (ps.available ++ ps.held.map Prod.fst)
          ((ps.available ++ [i]) ++ ((ps.held.map Prod.fst).erase i)) := by
        have h1 : List.Perm (ps.held.map Prod.fst)
            (i :: (ps.held.map Prod.fst).erase i) := List.perm_cons_erase hmem
        have h2 := h1.append_left ps.available
        have h3 : (ps.available ++ [i]) ++ ((ps.held.map Prod.fst).erase i) =
            ps.available ++ (i :: (ps.held.map Prod.fst).erase i) := by
          simp
        rw [h3]
        exact h2
      exact hperm.nodup hinv
    · rw [Prod.mk.injEq] at hr
      obtain ⟨-, rfl⟩ := hr
      exact hinv
  | close ps =>
    have h : PoolInv (poolClose ps) ↔ (ps.held.map Prod.fst).Nodup := by
      simp [PoolInv, poolClose]
    rw [h]
    exact ((List.sublist_append_right ps.available (ps.held.map Prod.fst)).nodup) hinv

theorem poolInv_reachable {c : Nat} {ps : PoolState} (h : PoolReachable c ps) :
    PoolInv ps := by
  induction h with
  | refl => exact poolInv_new c
  | tail _ hstep ih => exact poolInv_step hstep ih

/-! ## Claims -/

/-- C1: For every call to `InvokeWasmOperation` in which pool acquisition
succeeds, the acquired instance is returned to the pool exactly once before
the function returns, on every exit path: for every environment — hence for
every guest-execution outcome and every return-to-pool outcome — the event
trace of the call contains exactly one `returnedInstance` event for the
acquired instance (the `defer` block runs `wg.wapcPool.Return(wapcInstance)`
exactly once on each exit path that follows a successful `Get`). -/
theorem invoke_returns_instance_exactly_once (env : WapcEnv) (operation : String)
    (payload : Bytes) (i : Nat) (h : env.getResult = .ok i) :
    (InvokeWasmOperation env operation payload).2.count (.returnedInstance i) = 1 := by
  simp [InvokeWasmOperation, h, List.count_cons]

theorem invoke_returns_instance_exactly_once_witness :
    (InvokeWasmOperation ⟨.ok 0, fun _ _ _ => .ok [7], fun _ => none⟩ "op" []).2.count
      (.returnedInstance 0) = 1 :=
  invoke_returns_instance_exactly_once ⟨.ok 0, fun _ _ _ => .ok [7], fun _ => none⟩
    "op" [] 0 rfl

/-- C2 (code bug): The claim says a failure while returning the instance never changes
the invocation's already-determined outcome.  The code contradicts it: the
deferred block assigns `wg.wapcPool.Return(wapcInstance)` to the named return
value `err`, so when the guest execution succeeds (result `[42]`) and the pool
return fails, the caller receives the release error alongside the result
instead of a `nil` error. -/
theorem return_failure_changes_outcome :
    (InvokeWasmOperation
        ⟨.ok 0, fun _ _ _ => .ok [42], fun _ => some (.returnError "return failed")⟩
        "echo" [1]).1 = (some [42], some (.returnError "return failed")) := rfl

/-- C3 (code bug): The claim says a guest-execution failure is always propagated as a
non-nil error.  The code contradicts it: when the guest execution fails and the
subsequent pool return succeeds, the deferred `err = wg.wapcPool.Return(...)`
overwrites the guest error with `nil`, and the caller receives `(nil, nil)` —
the error is silently swallowed. -/
theorem guest_error_swallowed :
    (InvokeWasmOperation
        ⟨.ok 0, fun _ _ _ => .error (.guestError "operation not found"), fun _ => none⟩
        "unknownOp" []).1 = (none, none) := rfl

/-- C4 counterexample:  With the bytecode read and the compilation
succeeding but the pool construction failing, `NewWasmGuest` returns an error
yet the already-compiled module remains allocated (the source never closes the
module on this path), refuting "no partially-built resources remain reachable
afterward; the already-compiled module is not left allocated". -/
theorem module_left_allocated_on_pool_failure :
    ((NewWasmGuest ⟨.ok [0], fun _ => .ok (), false⟩).1.isOk = false) ∧
    Resource.module ∈ (NewWasmGuest ⟨.ok [0], fun _ => .ok (), false⟩).2 := by
  exact ⟨rfl, by simp [NewWasmGuest]⟩

/-- C4 amended:  If construction fails at any stage, `NewWasmGuest`
returns an error; a read failure or a compile failure leaves nothing
allocated, but a pool-construction failure leaves the already-compiled module
allocated (it is not closed before the error return). -/
theorem new_wasm_guest_failure_resources (env : BuildEnv) :
    (∀ e, env.readResult = .error e → NewWasmGuest env = (.error e, [])) ∧
    (∀ b e, env.readResult = .ok b → env.compileResult b = .error e →
      NewWasmGuest env = (.error e, [])) ∧
    (∀ b, env.readResult = .ok b → env.compileResult b = .ok () →
      env.poolInitOk = false →
      NewWasmGuest env = (.error (.poolInitError "pool"), [Resource.module])) := by
  refine ⟨?_, ?_, ?_⟩
  · intro e he
    simp [NewWasmGuest, he]
  · intro b e hb he
    simp [NewWasmGuest, hb, he]
  · intro b hb hc hp
    simp [NewWasmGuest, hb, hc, hp]

theorem new_wasm_guest_failure_resources_witness :
    NewWasmGuest ⟨.ok [0], fun _ => .ok (), false⟩ =
      (.error (.poolInitError "pool"), [Resource.module]) :=
  (new_wasm_guest_failure_resources ⟨.ok [0], fun _ => .ok (), false⟩).2.2 [0] rfl rfl rfl

/-- C5 counterexample:  `NewWasmGuest` takes no pool-capacity parameter:
the pool capacity is the literal `10` (`wasm_guest.go` line 63).  Compared with
the spec-modelled constructor `NewWasmGuestSpec` called with `poolCapacity = 3`
on the same environment, the source constructor builds a pool of capacity 10,
not 3, so the constructed pool's capacity does not equal a caller-supplied
value. -/
theorem pool_capacity_not_a_parameter :
    ((NewWasmGuest ⟨.ok [0], fun _ => .ok (), true⟩).1.map
        (fun wg => wg.pool.capacity) = .ok 10) ∧
    ((NewWasmGuestSpec ⟨.ok [0], fun _ => .ok (), true⟩ 3).1.map
        (fun wg => wg.pool.capacity) = .ok 3) ∧
    (10 : Nat) ≠ 3 := by
  refine ⟨rfl, rfl, by decide⟩

/-- C5 amended:  Construction takes no pool-capacity parameter; every
successfully constructed guest holds a pool of exactly 10 instances. -/
theorem pool_capacity_always_ten (env : BuildEnv) (wg : WasmGuestSt)
    (h : (NewWasmGuest env).1 = .ok wg) : wg.pool.capacity = 10 := by
  cases hr : env.readResult with
  | error e => simp [NewWasmGuest, hr] at h
  | ok b =>
    cases hc : env.compileResult b with
    | error e => simp [NewWasmGuest, hr, hc] at h
    | ok u =>
      by_cases hp : env.poolInitOk
      · simp only [NewWasmGuest, hr, hc, hp, if_true, Except.ok.injEq] at h
        subst h
        simp [PoolState.capacity, poolNew]
      · simp [NewWasmGuest, hr, hc, hp] at h

theorem pool_capacity_always_ten_witness :
    (WasmGuestSt.mk (poolNew 10) false).pool.capacity = 10 :=
  pool_capacity_always_ten ⟨.ok [0], fun _ => .ok (), true⟩ ⟨poolNew 10, false⟩ rfl

/-- C6: Acquisition is bounded by the fixed timeout — the `acquireAttempt`
event records the timeout handed to `Pool.Get`, the literal
`10 * time.Millisecond` — and when no instance is available in an open pool
the call fails with the distinguishable `timeout` error (its own constructor,
not a generic error), leaves the pool unchanged, and performs no guest
execution (the trace contains no `invokedGuest` event). -/
theorem invoke_timeout_no_guest_execution
    (guest : Nat → String → Bytes → Except WapcError Bytes) (ps : PoolState)
    (caller : Nat) (operation : String) (payload : Bytes)
    (h1 : ps.closed = false) (h2 : ps.available = []) :
    InvokeWasmOperationPooled guest ps caller operation payload =
      ((none, some .timeout), ps, [.acquireAttempt acquireTimeoutMillis]) ∧
    acquireTimeoutMillis = 10 := by
  refine ⟨?_, rfl⟩
  simp [InvokeWasmOperationPooled, poolGet, h1, h2]

theorem invoke_timeout_no_guest_execution_witness :
    InvokeWasmOperationPooled (fun _ _ _ => .ok []) ⟨[], [(0, 0)], false⟩ 1 "op" [] =
      ((none, some .timeout), ⟨[], [(0, 0)], false⟩,
        [.acquireAttempt acquireTimeoutMillis]) ∧
    acquireTimeoutMillis = 10 :=
  invoke_timeout_no_guest_execution (fun _ _ _ => .ok []) ⟨[], [(0, 0)], false⟩
    1 "op" [] rfl rfl

/-- C7: Once the pool is closed — which is what `Close` does to the
guest's pool — every subsequent `InvokeWasmOperation` call fails
deterministically with the closed-pool error, leaves the pool state untouched
(no corruption), performs no guest execution, and closedness is preserved by
every further pool transition, so this holds for all subsequent calls.  The
embedding is a total function, so the call cannot hang or panic. -/
theorem invoke_after_close_fails
    (guest : Nat → String → Bytes → Except WapcError Bytes) (ps : PoolState)
    (caller : Nat) (operation : String) (payload : Bytes)
    (h : ps.closed = true) :
    InvokeWasmOperationPooled guest ps caller operation payload =
      ((none, some .poolClosed), ps, [.acquireAttempt acquireTimeoutMillis]) ∧
    (∀ ps2 : PoolState, PoolStep ps ps2 → ps2.closed = true) := by
  constructor
  · simp [InvokeWasmOperationPooled, poolGet, h]
  · intro ps2 hstep
    cases hstep with
    | get caller i ps ps2 hg =>
      unfold poolGet at hg
      rw [if_pos h] at hg
      exact absurd hg (by simp)
    | ret i e ps ps2 hr =>
      unfold poolReturn at hr
      by_cases hmem : i ∈ ps.held.map Prod.fst
      · rw [if_pos hmem, if_pos h, Prod.mk.injEq] at hr
        obtain ⟨-, rfl⟩ := hr
        rfl
      · rw [if_neg hmem, Prod.mk.injEq] at hr
        obtain ⟨-, rfl⟩ := hr
        exact h
    | close ps => rfl

theorem invoke_after_close_fails_witness :
    InvokeWasmOperationPooled (fun _ _ _ => .ok [7])
        ((WasmGuestSt.mk (poolNew 1) false).close.1.pool) 0 "op" [] =
      ((none, some .poolClosed), (WasmGuestSt.mk (poolNew 1) false).close.1.pool,
        [.acquireAttempt acquireTimeoutMillis]) :=
  (invoke_after_close_fails (fun _ _ _ => .ok [7])
    ((WasmGuestSt.mk (poolNew 1) false).close.1.pool) 0 "op" [] rfl).1

/-- C8: Under any interleaving of pool transitions — each concurrent
`InvokeWasmOperation` call contributes one acquisition step and one return
step — no two calls ever hold the same instance simultaneously: in every pool
state reachable from a fresh pool, the list of checked-out instances (one
entry per in-flight invocation, paired with its caller) has no duplicate
instance. -/
theorem pool_instance_exclusivity (c : Nat) (ps : PoolState)
    (h : PoolReachable c ps) : (ps.held.map Prod.fst).Nodup :=
  (poolInv_reachable h).of_append_right

theorem pool_instance_exclusivity_witness :
    ((PoolState.mk [] [(1, 1), (0, 0)] false).held.map Prod.fst).Nodup := by
  have h1 : PoolStep (poolNew 2) ⟨[1], [(0, 0)], false⟩ :=
    PoolStep.get 0 0 (poolNew 2) ⟨[1], [(0, 0)], false⟩ rfl
  have h2 : PoolStep ⟨[1], [(0, 0)], false⟩ ⟨[], [(1, 1), (0, 0)], false⟩ :=
    PoolStep.get 1 1 ⟨[1], [(0, 0)], false⟩ ⟨[], [(1, 1), (0, 0)], false⟩ rfl
  have hr : PoolReachable 2 ⟨[], [(1, 1), (0, 0)], false⟩ :=
    Relation.ReflTransGen.tail (Relation.ReflTransGen.single h1) h2
  exact pool_instance_exclusivity 2 ⟨[], [(1, 1), (0, 0)], false⟩ hr

/-- C9: `Close` closes the instance pool first and the loaded module only
afterwards, on every call: the teardown trace is exactly
`[closedPool, closedModule]` (pool strictly before module), the resulting pool
is the closed pool, and the module is marked closed. -/
theorem close_pool_before_module (wg : WasmGuestSt) :
    wg.close.2 = [.closedPool, .closedModule] ∧
    wg.close.1 = ⟨poolClose wg.pool, true⟩ ∧
    wg.close.2.indexOf .closedPool < wg.close.2.indexOf .closedModule := by
  refine ⟨rfl, rfl, ?_⟩
  have h : wg.close.2 = [HostEvent.closedPool, HostEvent.closedModule] := rfl
  rw [h]
  decide

/-- C10: Because the deferred return-to-pool block assigns its outcome to
the named error return value `err`, whenever the guest execution succeeds and
returning the instance to the pool fails, the caller receives both a non-nil
result and a non-nil error from the same call. -/
theorem result_and_error_together (env : WapcEnv) (operation : String)
    (payload : Bytes) (i : Nat) (r : Bytes) (e : WapcError)
    (h1 : env.getResult = .ok i)
    (h2 : env.invokeResult i operation payload = .ok r)
    (h3 : env.returnResult i = some e) :
    (InvokeWasmOperation env operation payload).1 = (some r, some e) := by
  simp [InvokeWasmOperation, h1, h2, h3]

theorem result_and_error_together_witness :
    (InvokeWasmOperation
        ⟨.ok 0, fun _ _ _ => .ok [9], fun _ => some (.returnError "return failed")⟩
        "op" []).1 = (some [9], some (.returnError "return failed")) :=
  result_and_error_together
    ⟨.ok 0, fun _ _ _ => .ok [9], fun _ => some (.returnError "return failed")⟩
    "op" [] 0 [9] (.returnError "return failed") rfl rfl rfl
